import Mathlib

/-!
Verification development for the `index-tts2` HTTP service
(`app/services/voice_manager.py`, `app/services/tts_service.py`,
`app/utils/audio.py`).

Python strings are modelled as `List Char` (abbreviated `Str`), the
filesystem as the list of existing paths, the metadata JSON file as an
optional list of records (a `none` record models an entry that fails to
parse as a `Voice`), and the clock as an explicit parameter.  All
definitions are executable; effectful Python methods become state-passing
functions.
-/

namespace IndexTTS

abbrev Str := List Char

def toL (s : String) : Str := s.toList

/-! ### `_slugify` (voice_manager.py lines 19-24)

`_SLUGIFY_RE = re.compile(r"[^a-z0-9]+")`;
`_slugify` lowercases, substitutes each maximal run of characters outside
`[a-z0-9]` by a single `-`, strips leading/trailing `-`, and falls back to
`voice-<UTC timestamp>` when the result is empty.  The formatted timestamp
string is passed in as the parameter `fallback`. -/

def isSlugChar (c : Char) : Bool :=
  (('a' ≤ c) && (c ≤ 'z')) || (('0' ≤ c) && (c ≤ '9'))

/-- Direct translation of `_SLUGIFY_RE.sub("-", ·)`: each maximal run of
characters outside `[a-z0-9]` becomes one `'-'`. -/
def subRuns : Str → Str
  | [] => []
  | [c] => if isSlugChar c then [c] else ['-']
  | c :: d :: rest =>
    if isSlugChar c then c :: subRuns (d :: rest)
    else if isSlugChar d then '-' :: subRuns (d :: rest)
    else subRuns (d :: rest)

/-- Python `str.strip("-")`: drop every leading and trailing `'-'`. -/
def stripDash (s : Str) : Str :=
  ((s.dropWhile (fun c => c = '-')).reverse.dropWhile (fun c => c = '-')).reverse

def slugify (fallback : Str) (value : Str) : Str :=
  let slug := stripDash (subRuns (value.map Char.toLower))
  if slug = [] then toL "voice-" ++ fallback else slug

/-! Spec-side rendering of the slug core, following the spec's words
("replaces every maximal run of characters outside `[a-z0-9]` with a
single `-`"): first map every bad character to `'-'`, then collapse
adjacent `'-'` pairs. -/

def markBad (s : Str) : Str :=
  s.map (fun c => if isSlugChar c then c else '-')

def dedupDash : Str → Str
  | [] => []
  | [c] => [c]
  | c :: d :: rest =>
    if c = '-' && d = '-' then dedupDash (d :: rest) else c :: dedupDash (d :: rest)

/-! ### Decimal rendering of a counter (Python f-string `f"{slug}-{counter}"`) -/

def natToStrAux : Nat → Nat → Str
  | 0, _ => []
  | _ + 1, 0 => []
  | fuel + 1, n + 1 =>
    natToStrAux fuel ((n + 1) / 10) ++ [Nat.digitChar ((n + 1) % 10)]

def natToStr (n : Nat) : Str :=
  if n = 0 then ['0'] else natToStrAux n n

/-- Left inverse of `Nat.digitChar` on digits below 10. -/
def charDigit (c : Char) : Nat := c.toNat - '0'.toNat

def decodeStr (s : Str) : Nat := Nat.ofDigits 10 (s.map charDigit).reverse

/-! ### Collision-free identifier resolution (`add_voice` lines 121-128)

```
slug = _slugify(voice_name); candidate = slug; counter = 1
while candidate in self._voices:
    counter += 1
    candidate = f"{slug}-{counter}"
```
The while loop is modelled with explicit fuel `keys.length + 1`; the
candidates are pairwise distinct, so this fuel always suffices
(`resolveIdLoop_free` below). -/

def candId (slug : Str) (n : Nat) : Str := slug ++ '-' :: natToStr n

def resolveIdLoop (keys : List Str) (slug : Str) : Nat → Nat → Str
  | counter, 0 => candId slug counter
  | counter, fuel + 1 =>
    if keys.contains (candId slug counter) then resolveIdLoop keys slug (counter + 1) fuel
    else candId slug counter

def resolveId (keys : List Str) (slug : Str) : Str :=
  if keys.contains slug then resolveIdLoop keys slug 2 (keys.length + 1) else slug

/-! ### Data model (`app/models.py`, `app/config.py`) -/

structure Voice where
  id : Str
  name : Str
  path : Str
  createdAt : Nat
deriving DecidableEq, Repr

structure Settings where
  voices_dir : Str
  default_voice_name : Str
  default_voice_id : Str
  default_voice_source : Option Str
  output_dir : Str
deriving DecidableEq, Repr

/-- HTTPException: status code plus detail message. -/
structure HError where
  status : Nat
  detail : Str
deriving DecidableEq, Repr

/-- State owned by a `VoiceManager` together with the parts of the
filesystem it touches: `voices` is the in-memory id→Voice dict (an
association list in insertion order, as a Python dict iterates), `metadata`
the parsed content of the metadata JSON file (`none` = file absent; a
`none` record = a list item that fails to parse as a `Voice`), and `files`
the set of paths existing on disk. -/
structure VMState where
  voices : List (Str × Voice)
  metadata : Option (List (Option Voice))
  files : List Str
deriving DecidableEq, Repr

def keysOf (m : List (Str × Voice)) : List Str := m.map Prod.fst

/-- Python dict assignment `m[k] = v`: replace in place if the key is
present, else append. -/
def dictInsert (m : List (Str × Voice)) (k : Str) (v : Voice) : List (Str × Voice) :=
  if (keysOf m).contains k then m.map (fun p => if p.1 = k then (k, v) else p)
  else m ++ [(k, v)]

def dictGet (m : List (Str × Voice)) (k : Str) : Option Voice :=
  (m.find? (fun p => p.1 = k)).map Prod.snd

/-- Membership of a path in the modelled filesystem (a write overwrites,
so the list is kept duplicate-free by `insertFile`). -/
def insertFile (p : Str) (fs : List Str) : List Str :=
  if fs.contains p then fs else p :: fs

/-- `Path.unlink(missing_ok=True)`. -/
def removeFile (p : Str) (fs : List Str) : List Str :=
  fs.filter (fun q => q ≠ p)

/-- Python `str.strip()` (whitespace at both ends). -/
def stripWS (s : Str) : Str :=
  ((s.dropWhile Char.isWhitespace).reverse.dropWhile Char.isWhitespace).reverse

/-- `Path(p).name`: the final path component. -/
def lastComponent (p : Str) : Str :=
  p.foldl (fun acc c => if c = '/' then [] else acc ++ [c]) []

/-- `Path(p).suffix`: the extension of the final component, the part from
its last dot at index `i`, non-empty only under pathlib's check
`0 < i < len(name) - 1`: empty when there is no dot, when the last dot is
the leading character (`.bashrc`), or when it is the trailing character
(`a.`). -/
def fileSuffix (p : Str) : Str :=
  let base := lastComponent p
  let r := base.reverse
  let pre := r.takeWhile (fun c => c ≠ '.')
  if pre.length = r.length then []
  else if pre.length + 1 = r.length then []
  else if pre.length = 0 then []
  else '.' :: pre.reverse

/-! ### `VoiceManager` operations (voice_manager.py) -/

/-- `_load` body (lines 54-64): iterate over the metadata records, skip
records that fail to parse, drop records whose resolved file is missing,
key the fresh dict by `voice.id`. -/
def loadItems (S : Settings) (fs : List Str) :
    List (Option Voice) → List (Str × Voice) → List (Str × Voice)
  | [], acc => acc
  | none :: rest, acc => loadItems S fs rest acc
  | some v :: rest, acc =>
    if fs.contains (S.voices_dir ++ '/' :: v.path) then
      loadItems S fs rest (dictInsert acc v.id v)
    else loadItems S fs rest acc

/-- `_load` (lines 49-64): absent metadata file ⇒ empty dict. -/
def loadVoices (S : Settings) (metadata : Option (List (Option Voice)))
    (fs : List Str) : List (Str × Voice) :=
  match metadata with
  | none => []
  | some records => loadItems S fs records []

def vmLoad (S : Settings) (st : VMState) : VMState :=
  { st with voices := loadVoices S st.metadata st.files }

/-- `_save` (lines 66-70): serialize the full current map.  The
write-to-temporary-then-rename step is not observable in this model, which
only records the final metadata content. -/
def vmSave (st : VMState) : VMState :=
  { st with metadata := some (st.voices.map (fun p => some p.2)) }

/-- `_seed_default_voice` (lines 72-89). -/
def seedDefault (S : Settings) (now : Nat) (st : VMState) : VMState :=
  match S.default_voice_source with
  | none => st
  | some source =>
    if st.files.contains source then
      let destRel := S.default_voice_id ++ '/' :: lastComponent source
      let destFile := S.voices_dir ++ '/' :: destRel
      let v : Voice :=
        { id := S.default_voice_id, name := S.default_voice_name,
          path := destRel, createdAt := now }
      vmSave { st with
        files := insertFile destFile st.files,
        voices := dictInsert st.voices S.default_voice_id v }
    else st

/-- `bootstrap` (lines 40-47): load, then seed iff the map came up empty. -/
def bootstrap (S : Settings) (now : Nat) (st : VMState) : VMState :=
  let st1 := vmLoad S st
  if st1.voices.isEmpty then seedDefault S now st1 else st1

/-- `list_voices` (lines 91-93): snapshot of the dict's values. -/
def list_voices (st : VMState) : List Voice := st.voices.map Prod.snd

/-- `get_voice` (lines 95-102). -/
def get_voice (S : Settings) (st : VMState) (voice_id : Option Str) : Except HError Voice :=
  let vid := voice_id.getD S.default_voice_id
  match dictGet st.voices vid with
  | none => .error ⟨404, toL "Voice not found"⟩
  | some v => .ok v

/-- `file_path.relative_to(self.settings.voices_dir)` as used by
`register_voice`; raises (modelled as `none`) when `path` is not under
`dir`. -/
def relativeTo (dir path : Str) : Option Str :=
  if (dir ++ ['/']).isPrefixOf path then some (path.drop (dir.length + 1)) else none

/-- `register_voice` (lines 104-110). -/
def register_voice (S : Settings) (now : Nat) (st : VMState)
    (voice_id name : Str) (file_path : Str) : VMState × Except HError Voice :=
  match relativeTo S.voices_dir file_path with
  | none => (st, .error ⟨500, toL "path not under voices_dir"⟩)
  | some rel =>
    let v : Voice := { id := voice_id, name := name, path := rel, createdAt := now }
    (vmSave { st with voices := dictInsert st.voices v.id v }, .ok v)

/-- `upload.filename or "voice.wav"` (Python `or` treats `None` and the
empty string as falsy). -/
def uploadBase : Option Str → Str
  | none => toL "voice.wav"
  | some s => if s = [] then toL "voice.wav" else s

/-- `f"prompt{suffix}"` with `suffix = Path(...).suffix or ".wav"`. -/
def promptFilename (uploadFilename : Option Str) : Str :=
  toL "prompt" ++
    (if fileSuffix (uploadBase uploadFilename) = [] then toL ".wav"
     else fileSuffix (uploadBase uploadFilename))

/-- `add_voice` (lines 117-138).  `uploadFilename` models
`upload.filename` (`none` = missing); `fallback` is the timestamp string
`_slugify` would use for an all-punctuation name.  The uploaded bytes are
not modelled beyond the write of the target file. -/
def add_voice (S : Settings) (now : Nat) (fallback : Str) (st : VMState)
    (uploadFilename : Option Str) (voice_name : Str) : VMState × Except HError Voice :=
  if stripWS voice_name = [] then
    (st, .error ⟨400, toL "voice_name must not be empty"⟩)
  else
    let slug := slugify fallback voice_name
    let voice_id := resolveId (keysOf st.voices) slug
    let target := S.voices_dir ++ '/' :: (voice_id ++ '/' :: promptFilename uploadFilename)
    let st1 := { st with files := insertFile target st.files }
    register_voice S now st1 voice_id (stripWS voice_name) target

/-- `absolute_voice_path` (lines 140-144). -/
def absolute_voice_path (S : Settings) (st : VMState) (v : Voice) : Except HError Str :=
  let p := S.voices_dir ++ '/' :: v.path
  if st.files.contains p then .ok p
  else .error ⟨404, toL "Voice prompt file missing"⟩

/-! ### `TTSService` (tts_service.py)

The external collaborators (the `indextts.infer_v2` import, the
`IndexTTS2` constructor, `model.infer`, `apply_speed_and_pitch`) are
stubs whose outcomes are fixed by a `GenEnv`; each stub call either
succeeds, producing exactly its declared output file, or raises,
producing nothing (the success/failure contract of spec §6).  The
request's `speed`/`pitch` floats are modelled in fixed point as integer
thousandths (`speed = 1200` is the float `1.2`), so the float tolerance
`1e-3` becomes the integer `1`. -/

structure TTSState where
  model : Option Unit
  loadCount : Nat
deriving DecidableEq, Repr

structure GenEnv where
  importOk : Bool
  loadErr : Option Str
  inferRaises : Bool
  inferReturns : Bool
  inferCreates : Bool
  postOk : Bool
deriving DecidableEq, Repr

/-- `ensure_model_loaded` (lines 33-64).  The double-checked lock is the
same test twice in this sequential model; `loadCount` counts the
invocations of the `IndexTTS2(...)` constructor (the underlying load). -/
def ensure_model_loaded (env : GenEnv) (ts : TTSState) : TTSState × Except HError Unit :=
  if ts.model.isSome then (ts, .ok ())
  else if ts.model.isSome then (ts, .ok ())
  else if env.importOk = false then
    (ts, .error ⟨500, toL "Failed to import IndexTTS2"⟩)
  else
    match env.loadErr with
    | some msg => ({ ts with loadCount := ts.loadCount + 1 }, .error ⟨500, msg⟩)
    | none => ({ ts with loadCount := ts.loadCount + 1, model := some () }, .ok ())

structure GenerateRequest where
  text : Str
  voice_id : Option Str
  speed : ℤ
  pitch : ℤ
deriving DecidableEq, Repr

structure GenerateResponse where
  voice_id : Str
  audio_path : Str
  audio_url : Str
deriving DecidableEq, Repr

inductive GenEvent where
  | voiceLookup
  | voicePath
  | modelLoad
  | infer
  | postProcess
deriving DecidableEq, Repr

/-- Combined mutable state touched by `generate`: the voice registry and
filesystem, the model-lifecycle state, and a log of collaborator
invocations (used to express "no collaborator is invoked"). -/
structure World where
  vm : VMState
  tts : TTSState
  events : List GenEvent
deriving DecidableEq, Repr

def logEvent (w : World) (e : GenEvent) : World :=
  { w with events := w.events ++ [e] }

def setFiles (w : World) (fs : List Str) : World :=
  { w with vm := { w.vm with files := fs } }

def rawPath (S : Settings) (uid : Str) : Str :=
  S.output_dir ++ '/' :: (uid ++ toL "_raw.wav")

def finalPath (S : Settings) (uid : Str) : Str :=
  S.output_dir ++ '/' :: (uid ++ toL ".wav")

/-- `generate` (lines 75-120).  `uid` models `uuid.uuid4().hex`.  The
speed/pitch post-processing branch runs `apply_speed_and_pitch` with a
`finally:` unlink of the raw scratch file; the tolerance is `1e-3`. -/
def generate (S : Settings) (env : GenEnv) (uid : Str) (w : World)
    (payload : GenerateRequest) : World × Except HError GenerateResponse :=
  if stripWS payload.text = [] then
    (w, .error ⟨400, toL "text must not be empty"⟩)
  else
    let w1 := logEvent w .voiceLookup
    match get_voice S w1.vm payload.voice_id with
    | .error e => (w1, .error e)
    | .ok voice =>
      let w2 := logEvent w1 .voicePath
      match absolute_voice_path S w2.vm voice with
      | .error e => (w2, .error e)
      | .ok _voice_path =>
        let w3 := logEvent w2 .modelLoad
        let r := ensure_model_loaded env w3.tts
        let w4 := { w3 with tts := r.1 }
        match r.2 with
        | .error e => (w4, .error e)
        | .ok () =>
          if w4.tts.model.isNone then
            (w4, .error ⟨500, toL "Model failed to load"⟩)
          else
            let raw := rawPath S uid
            let w5 := logEvent w4 .infer
            if env.inferRaises then
              (w5, .error ⟨500, toL "Inference failed"⟩)
            else
              let w6 := if env.inferCreates then setFiles w5 (insertFile raw w5.vm.files) else w5
              if env.inferReturns = false then
                (w6, .error ⟨500, toL "Model did not return a valid audio path"⟩)
              else if (w6.vm.files.contains raw) = false then
                (w6, .error ⟨500, toL "Model did not return a valid audio path"⟩)
              else
                let fin := finalPath S uid
                if |payload.speed - 1000| > 1 ∨ |payload.pitch| > 1 then
                  let w7 := logEvent w6 .postProcess
                  if env.postOk then
                    (setFiles w7 (removeFile raw (insertFile fin w7.vm.files)),
                     .ok ⟨voice.id, uid ++ toL ".wav", []⟩)
                  else
                    (setFiles w7 (removeFile raw w7.vm.files),
                     .error ⟨500, toL "Audio post-processing failed"⟩)
                else
                  (setFiles w6 (insertFile fin (removeFile raw w6.vm.files)),
                   .ok ⟨voice.id, uid ++ toL ".wav", []⟩)

/-! ### Concrete fixtures (used by the closed witness theorems) -/

def exSettings : Settings :=
  { voices_dir := toL "/app/voices",
    default_voice_name := toL "Default",
    default_voice_id := toL "default",
    default_voice_source := some (toL "examples/voice_01.wav"),
    output_dir := toL "/app/output" }

def exEmpty : VMState := { voices := [], metadata := none, files := [] }

def exVoice : Voice :=
  { id := toL "default", name := toL "Default",
    path := toL "default/voice_01.wav", createdAt := 3 }

def exReg : VMState :=
  { voices := [(toL "default", exVoice)], metadata := none,
    files := [toL "/app/voices/default/voice_01.wav"] }

def exFresh : VMState :=
  { voices := [], metadata := none, files := [toL "examples/voice_01.wav"] }

def exEnv : GenEnv :=
  { importOk := true, loadErr := none, inferRaises := false,
    inferReturns := true, inferCreates := true, postOk := true }

def exTTS : TTSState := { model := none, loadCount := 0 }

def exWorld : World := { vm := exReg, tts := exTTS, events := [] }

def exReq : GenerateRequest :=
  { text := toL "hello", voice_id := some (toL "default"), speed := 1200, pitch := -1000 }

/-! ## Proof layer -/

/-! ### The slugger -/

theorem isSlugChar_ne_dash {c : Char} (h : isSlugChar c = true) : c ≠ '-' := by
  intro hc
  subst hc
  simp [isSlugChar] at h

theorem subRuns_eq_dedup_markBad (s : Str) : subRuns s = dedupDash (markBad s) := by
  induction s with
  | nil => rfl
  | cons c rest ih =>
    cases rest with
    | nil =>
      by_cases h : isSlugChar c = true
      · simp [subRuns, markBad, dedupDash, h]
      · simp [subRuns, markBad, dedupDash, h]
    | cons d rest2 =>
      by_cases hc : isSlugChar c = true
      · have hcd := isSlugChar_ne_dash hc
        by_cases hd : isSlugChar d = true
        · simp [subRuns, markBad, dedupDash, hc, hd, hcd] at *
          simpa [markBad] using ih
        · simp [subRuns, markBad, dedupDash, hc, hd, hcd] at *
          simpa [markBad] using ih
      · by_cases hd : isSlugChar d = true
        · have hdd := isSlugChar_ne_dash hd
          simp [subRuns, markBad, dedupDash, hc, hd, hdd] at *
          simpa [markBad] using ih
        · simp [subRuns, markBad, dedupDash, hc, hd] at *
          simpa [markBad] using ih

/-- C4: for every input string, `_slugify` lower-cases it, replaces every
maximal run of characters outside `[a-z0-9]` with a single `-` (rendered
spec-side as `dedupDash ∘ markBad`), and trims leading/trailing `-`; when
that core is empty it instead returns `voice-<timestamp>` (the formatted
clock value is the `fallback` parameter), so the output is always
non-empty. -/
theorem C4_slugify_spec (fallback value : Str) :
    slugify fallback value ≠ [] ∧
    slugify fallback value =
      (if stripDash (dedupDash (markBad (value.map Char.toLower))) = []
       then toL "voice-" ++ fallback
       else stripDash (dedupDash (markBad (value.map Char.toLower)))) := by
  have hcore : slugify fallback value =
      (if stripDash (dedupDash (markBad (value.map Char.toLower))) = []
       then toL "voice-" ++ fallback
       else stripDash (dedupDash (markBad (value.map Char.toLower)))) := by
    simp only [slugify, subRuns_eq_dedup_markBad]
  refine ⟨?_, hcore⟩
  rw [hcore]
  split
  · simp [toL]
  · assumption

/-! ### Decimal counters and the collision loop -/

theorem charDigit_digitChar {d : Nat} (h : d < 10) :
    charDigit (Nat.digitChar d) = d := by
  revert d
  decide

theorem natToStrAux_eq_digits :
    ∀ fuel n, n ≤ fuel → natToStrAux fuel n = (Nat.digits 10 n).reverse.map Nat.digitChar := by
  intro fuel
  induction fuel with
  | zero =>
    intro n hn
    interval_cases n
    simp [natToStrAux]
  | succ fuel ih =>
    intro n hn
    match n with
    | 0 => simp [natToStrAux]
    | m + 1 =>
      have h2 : (m + 1) / 10 < m + 1 := Nat.div_lt_self (Nat.succ_pos m) (by norm_num)
      have hdiv : (m + 1) / 10 ≤ fuel := by omega
      rw [natToStrAux, ih _ hdiv]
      conv_rhs => rw [Nat.digits_def' (by norm_num : (1:ℕ) < 10) (Nat.succ_pos m)]
      simp

theorem decodeStr_natToStr (n : Nat) : decodeStr (natToStr n) = n := by
  by_cases h : n = 0
  · subst h
    decide
  · unfold natToStr decodeStr
    simp only [h, if_false]
    rw [natToStrAux_eq_digits n n le_rfl]
    rw [List.map_map, List.map_reverse, List.reverse_reverse]
    have hmap : (Nat.digits 10 n).map (charDigit ∘ Nat.digitChar) = Nat.digits 10 n := by
      have : ∀ d ∈ Nat.digits 10 n, (charDigit ∘ Nat.digitChar) d = id d := by
        intro d hd
        exact charDigit_digitChar (Nat.digits_lt_base (by norm_num) hd)
      rw [List.map_congr_left this, List.map_id]
    rw [hmap, Nat.ofDigits_digits]

theorem natToStr_injective : Function.Injective natToStr := by
  intro a b h
  have := congrArg decodeStr h
  rwa [decodeStr_natToStr, decodeStr_natToStr] at this

theorem candId_injective (slug : Str) : Function.Injective (candId slug) := by
  intro a b h
  unfold candId at h
  have h2 := List.append_cancel_left h
  exact natToStr_injective (List.cons_injective h2)

theorem resolveIdLoop_spec (keys : List Str) (slug : Str) :
    ∀ fuel counter, (∃ i, i < fuel ∧ (candId slug (counter + i)) ∉ keys) →
    ∃ i, i < fuel ∧ resolveIdLoop keys slug counter fuel = candId slug (counter + i) ∧
      (candId slug (counter + i)) ∉ keys ∧
      ∀ j, j < i → (candId slug (counter + j)) ∈ keys := by
  intro fuel
  induction fuel with
  | zero =>
    intro counter hfree
    obtain ⟨i, hi, _⟩ := hfree
    omega
  | succ fuel ih =>
    intro counter hfree
    by_cases hmem : candId slug counter ∈ keys
    · have hc : keys.contains (candId slug counter) = true := List.elem_iff.mpr hmem
      have hloop : resolveIdLoop keys slug counter (fuel + 1) =
          resolveIdLoop keys slug (counter + 1) fuel := by
        simp [resolveIdLoop, hc, hmem]
      obtain ⟨i, hi, hfree'⟩ := hfree
      have hipos : i ≠ 0 := by
        intro h0
        subst h0
        simp at hfree'
        exact hfree' hmem
      have hshift : ∃ i, i < fuel ∧ candId slug (counter + 1 + i) ∉ keys := by
        refine ⟨i - 1, by omega, ?_⟩
        have : counter + 1 + (i - 1) = counter + i := by omega
        rwa [this]
      obtain ⟨k, hk, heq, hfreek, hleast⟩ := ih (counter + 1) hshift
      refine ⟨k + 1, by omega, ?_, ?_, ?_⟩
      · rw [hloop, heq]
        congr 1
        omega
      · have : counter + (k + 1) = counter + 1 + k := by omega
        rwa [this]
      · intro j hj
        cases j with
        | zero => simpa using hmem
        | succ j' =>
          have : counter + (j' + 1) = counter + 1 + j' := by omega
          rw [this]
          exact hleast j' (by omega)
    · refine ⟨0, by omega, ?_, by simpa using hmem, by omega⟩
      have hc : keys.contains (candId slug counter) = false := by
        simpa [List.elem_iff] using hmem
      simp [resolveIdLoop, hc, hmem]

theorem exists_free_cand (keys : List Str) (slug : Str) (counter : Nat) :
    ∃ i, i < keys.length + 1 ∧ (candId slug (counter + i)) ∉ keys := by
  by_contra hall
  push_neg at hall
  have hsub : ((List.range (keys.length + 1)).map (fun i => candId slug (counter + i))) ⊆ keys := by
    intro x hx
    obtain ⟨i, hi, rfl⟩ := List.mem_map.mp hx
    exact hall i (List.mem_range.mp hi)
  have hnodup : ((List.range (keys.length + 1)).map (fun i => candId slug (counter + i))).Nodup := by
    refine List.Nodup.map ?_ (List.nodup_range _)
    intro a b hab
    have := candId_injective slug hab
    omega
  have := (hnodup.subperm hsub).length_le
  simp at this

/-- The while loop of `add_voice`: the resulting id is free, and it is the
first free element of the candidate sequence `slug, slug-2, slug-3, …`. -/
theorem resolveId_spec (keys : List Str) (slug : Str) :
    resolveId keys slug ∉ keys ∧
    (resolveId keys slug = slug ∨
      (slug ∈ keys ∧ ∃ n, 2 ≤ n ∧ resolveId keys slug = candId slug n ∧
        ∀ k, 2 ≤ k → k < n → candId slug k ∈ keys)) := by
  unfold resolveId
  by_cases hmem : slug ∈ keys
  · simp only [List.elem_iff.mpr hmem, if_true]
    obtain ⟨i, hi, heq, hfree, hleast⟩ :=
      resolveIdLoop_spec keys slug (keys.length + 1) 2 (exists_free_cand keys slug 2)
    rw [heq]
    refine ⟨hfree, Or.inr ⟨hmem, 2 + i, by omega, rfl, ?_⟩⟩
    intro k hk2 hki
    have : k = 2 + (k - 2) := by omega
    rw [this]
    exact hleast (k - 2) (by omega)
  · have hc : keys.contains slug = false := by
      simpa [List.elem_iff] using hmem
    simp [hc, hmem]

/-! ### Dict and registry lemmas -/

theorem dictInsert_fresh {m : List (Str × Voice)} {k : Str} (v : Voice)
    (h : k ∉ keysOf m) : dictInsert m k v = m ++ [(k, v)] := by
  unfold dictInsert
  rw [if_neg]
  simp [List.elem_iff]
  exact h

theorem keysOf_append (m₁ m₂ : List (Str × Voice)) :
    keysOf (m₁ ++ m₂) = keysOf m₁ ++ keysOf m₂ := by
  simp [keysOf]

theorem dictGet_append_right {m₁ m₂ : List (Str × Voice)} {k : Str}
    (h : k ∉ keysOf m₁) : dictGet (m₁ ++ m₂) k = dictGet m₂ k := by
  unfold dictGet
  rw [List.find?_append]
  have : m₁.find? (fun p => p.1 = k) = none := by
    rw [List.find?_eq_none]
    intro p hp
    simp only [decide_eq_true_eq]
    intro hpk
    exact h (List.mem_map.mpr ⟨p, hp, hpk⟩)
  rw [this, Option.none_or]

theorem dictGet_replace (m : List (Str × Voice)) (k : Str) (v : Voice) (h : k ∈ keysOf m) :
    dictGet (m.map (fun p => if p.1 = k then (k, v) else p)) k = some v := by
  induction m with
  | nil => simp [keysOf] at h
  | cons p rest ih =>
    by_cases hp : p.1 = k
    · simp [dictGet, hp]
    · have hrest : k ∈ keysOf rest := by
        rcases List.mem_map.mp h with ⟨q, hq, hqk⟩
        rcases List.mem_cons.mp hq with hq1 | hq2
        · exact absurd (hq1 ▸ hqk) hp
        · exact List.mem_map.mpr ⟨q, hq2, hqk⟩
      have ihr := ih hrest
      unfold dictGet at ihr ⊢
      simp only [List.map_cons, if_neg hp]
      rw [List.find?_cons_of_neg]
      · exact ihr
      · simp [hp]

theorem dictGet_insert_self (m : List (Str × Voice)) (k : Str) (v : Voice) :
    dictGet (dictInsert m k v) k = some v := by
  by_cases h : k ∈ keysOf m
  · unfold dictInsert
    rw [if_pos (List.elem_iff.mpr h)]
    exact dictGet_replace m k v h
  · rw [dictInsert_fresh v h, dictGet_append_right h]
    simp [dictGet]

theorem relativeTo_construct (dir rest : Str) :
    relativeTo dir (dir ++ '/' :: rest) = some rest := by
  unfold relativeTo
  have hshape : dir ++ '/' :: rest = (dir ++ ['/']) ++ rest := by simp
  rw [if_pos]
  · congr 1
    rw [hshape, List.drop_left' (by simp)]
  · rw [hshape]
    exact List.isPrefixOf_iff_prefix.mpr (List.prefix_append _ _)

/-- Successful `add_voice` in closed form. -/
theorem add_voice_ok (S : Settings) (now : Nat) (fallback : Str) (st : VMState)
    (uploadFilename : Option Str) (voice_name : Str) (h : stripWS voice_name ≠ []) :
    add_voice S now fallback st uploadFilename voice_name =
      (vmSave
        { voices := dictInsert st.voices (resolveId (keysOf st.voices) (slugify fallback voice_name))
            { id := resolveId (keysOf st.voices) (slugify fallback voice_name),
              name := stripWS voice_name,
              path := resolveId (keysOf st.voices) (slugify fallback voice_name) ++
                '/' :: promptFilename uploadFilename,
              createdAt := now },
          metadata := st.metadata,
          files := insertFile
            (S.voices_dir ++ '/' :: (resolveId (keysOf st.voices) (slugify fallback voice_name) ++
              '/' :: promptFilename uploadFilename)) st.files },
       .ok
        { id := resolveId (keysOf st.voices) (slugify fallback voice_name),
          name := stripWS voice_name,
          path := resolveId (keysOf st.voices) (slugify fallback voice_name) ++
            '/' :: promptFilename uploadFilename,
          createdAt := now }) := by
  simp only [add_voice, register_voice, if_neg h, relativeTo_construct]

theorem resolveId_not_mem {keys : List Str} {slug : Str} (h : slug ∉ keys) :
    resolveId keys slug = slug := by
  unfold resolveId
  rw [if_neg]
  simp only [List.elem_iff]
  exact h

theorem resolveId_second (keys : List Str) (slug : Str)
    (h1 : slug ∈ keys) (h2 : candId slug 2 ∉ keys) :
    resolveId keys slug = candId slug 2 := by
  obtain ⟨hfree, hcase⟩ := resolveId_spec keys slug
  rcases hcase with heq | ⟨_, n, hn2, heq, hleast⟩
  · rw [heq] at hfree
    exact absurd h1 hfree
  · rcases Nat.lt_or_ge 2 n with hlt | hge
    · exact absurd (hleast 2 le_rfl hlt) h2
    · have hn : n = 2 := by omega
      rw [heq, hn]

theorem keysOf_insert_fresh {m : List (Str × Voice)} {k : Str} (v : Voice)
    (h : k ∉ keysOf m) : keysOf (dictInsert m k v) = keysOf m ++ [k] := by
  rw [dictInsert_fresh v h, keysOf_append]
  rfl

theorem dictGet_map_replace (m : List (Str × Voice)) (k k' : Str) (v : Voice)
    (h : k' ≠ k) :
    dictGet (m.map (fun p => if p.1 = k then (k, v) else p)) k' = dictGet m k' := by
  have hkk : ¬(k = k') := fun hh => h hh.symm
  induction m with
  | nil => rfl
  | cons p rest ih =>
    by_cases hp : p.1 = k
    · simp only [List.map_cons, if_pos hp]
      unfold dictGet
      rw [List.find?_cons_of_neg _ (by simpa using hkk),
        List.find?_cons_of_neg _ (by simp [hp]; exact hkk)]
      exact ih
    · simp only [List.map_cons, if_neg hp]
      by_cases hq : p.1 = k'
      · unfold dictGet
        rw [List.find?_cons_of_pos _ (by simpa using hq),
          List.find?_cons_of_pos _ (by simpa using hq)]
      · unfold dictGet
        rw [List.find?_cons_of_neg _ (by simpa using hq),
          List.find?_cons_of_neg _ (by simpa using hq)]
        exact ih

theorem dictGet_insert_ne (m : List (Str × Voice)) (k k' : Str) (v : Voice)
    (h : k' ≠ k) : dictGet (dictInsert m k v) k' = dictGet m k' := by
  have hkk : ¬(k = k') := fun hh => h hh.symm
  unfold dictInsert
  split
  · exact dictGet_map_replace m k k' v h
  · unfold dictGet
    rw [List.find?_append]
    have hnone : ([(k, v)].find? (fun p => p.1 = k')) = none := by
      simp [List.find?_cons, hkk]
    rw [hnone, Option.or_none]

theorem mem_insertFile_self (p : Str) (fs : List Str) : p ∈ insertFile p fs := by
  unfold insertFile
  split
  · exact List.elem_iff.mp (by assumption)
  · exact List.mem_cons_self _ _

theorem mem_insertFile_of_mem {q : Str} (p : Str) {fs : List Str} (h : q ∈ fs) :
    q ∈ insertFile p fs := by
  unfold insertFile
  split
  · exact h
  · exact List.mem_cons_of_mem _ h

theorem slugify_new_voice (fb : Str) : slugify fb (toL "New Voice") = toL "new-voice" := by
  have hcore : stripDash (subRuns ((toL "New Voice").map Char.toLower)) = toL "new-voice" := by
    decide
  simp only [slugify, hcore]
  rw [if_neg (by decide : ¬(toL "new-voice" = ([] : Str)))]

/-- C1: `add_voice` resolves a collision-free identifier: the stored id is
`resolveId (keys) (slugify name)`, which is not previously registered and
is either the bare slug or the first free `slug-n` with `n ≥ 2` (all
earlier suffixes being taken); and on a registry containing neither id,
two sequential `add_voice` calls with display name "New Voice" yield ids
`new-voice` then `new-voice-2`, both stored with both prompt files on
disk. -/
theorem C1_add_voice_collision_free_ids (S : Settings) (now now2 : Nat)
    (fb fb2 : Str) (st : VMState) (uf uf2 : Option Str) (name : Str)
    (hname : stripWS name ≠ []) :
    (∃ st' v, add_voice S now fb st uf name = (st', .ok v) ∧
      v.id = resolveId (keysOf st.voices) (slugify fb name) ∧
      v.id ∉ keysOf st.voices ∧
      (v.id = slugify fb name ∨
        (slugify fb name ∈ keysOf st.voices ∧
          ∃ n, 2 ≤ n ∧ v.id = candId (slugify fb name) n ∧
            ∀ k, 2 ≤ k → k < n → candId (slugify fb name) k ∈ keysOf st.voices)) ∧
      dictGet st'.voices v.id = some v) ∧
    (toL "new-voice" ∉ keysOf st.voices → toL "new-voice-2" ∉ keysOf st.voices →
      ∃ st1 v1 st2 v2,
        add_voice S now fb st uf (toL "New Voice") = (st1, .ok v1) ∧
        add_voice S now2 fb2 st1 uf2 (toL "New Voice") = (st2, .ok v2) ∧
        v1.id = toL "new-voice" ∧ v2.id = toL "new-voice-2" ∧
        dictGet st2.voices (toL "new-voice") = some v1 ∧
        dictGet st2.voices (toL "new-voice-2") = some v2 ∧
        (S.voices_dir ++ '/' :: (toL "new-voice" ++ '/' :: promptFilename uf)) ∈ st2.files ∧
        (S.voices_dir ++ '/' :: (toL "new-voice-2" ++ '/' :: promptFilename uf2)) ∈ st2.files) := by
  constructor
  · obtain ⟨hfree, hcase⟩ := resolveId_spec (keysOf st.voices) (slugify fb name)
    refine ⟨_, _, add_voice_ok S now fb st uf name hname, rfl, hfree, hcase, ?_⟩
    simp only [vmSave]
    exact dictGet_insert_self _ _ _
  · intro hs1 hs2
    have hnn : stripWS (toL "New Voice") ≠ [] := by decide
    have hres1 : resolveId (keysOf st.voices) (slugify fb (toL "New Voice")) = toL "new-voice" := by
      rw [slugify_new_voice]
      exact resolveId_not_mem hs1
    have h1 := add_voice_ok S now fb st uf (toL "New Voice") hnn
    rw [hres1] at h1
    obtain ⟨stA, vA, h1eq, hAvoices, hAfiles, hAid⟩ :
        ∃ stA vA, add_voice S now fb st uf (toL "New Voice") = (stA, .ok vA) ∧
          stA.voices = dictInsert st.voices (toL "new-voice") vA ∧
          stA.files = insertFile
            (S.voices_dir ++ '/' :: (toL "new-voice" ++ '/' :: promptFilename uf)) st.files ∧
          vA.id = toL "new-voice" :=
      ⟨_, _, h1, by simp [vmSave], by simp [vmSave], rfl⟩
    have hkeys1 : keysOf stA.voices = keysOf st.voices ++ [toL "new-voice"] := by
      rw [hAvoices]
      exact keysOf_insert_fresh vA hs1
    have hcand2 : candId (toL "new-voice") 2 = toL "new-voice-2" := by decide
    have hres2 : resolveId (keysOf stA.voices) (slugify fb2 (toL "New Voice")) =
        toL "new-voice-2" := by
      rw [slugify_new_voice, hkeys1, ← hcand2]
      apply resolveId_second
      · simp
      · rw [hcand2]
        simp only [List.mem_append, List.mem_singleton]
        rintro (hmem | hmem)
        · exact hs2 hmem
        · exact absurd hmem (by decide)
    have h2 := add_voice_ok S now2 fb2 stA uf2 (toL "New Voice") hnn
    rw [hres2] at h2
    obtain ⟨stB, vB, h2eq, hBvoices, hBfiles, hBid⟩ :
        ∃ stB vB, add_voice S now2 fb2 stA uf2 (toL "New Voice") = (stB, .ok vB) ∧
          stB.voices = dictInsert stA.voices (toL "new-voice-2") vB ∧
          stB.files = insertFile
            (S.voices_dir ++ '/' :: (toL "new-voice-2" ++ '/' :: promptFilename uf2)) stA.files ∧
          vB.id = toL "new-voice-2" :=
      ⟨_, _, h2, by simp [vmSave], by simp [vmSave], rfl⟩
    refine ⟨stA, vA, stB, vB, h1eq, h2eq, hAid, hBid, ?_, ?_, ?_, ?_⟩
    · rw [hBvoices, dictGet_insert_ne _ _ _ _ (by decide), hAvoices]
      exact dictGet_insert_self _ _ _
    · rw [hBvoices]
      exact dictGet_insert_self _ _ _
    · rw [hBfiles]
      apply mem_insertFile_of_mem
      rw [hAfiles]
      exact mem_insertFile_self _ _
    · rw [hBfiles]
      exact mem_insertFile_self _ _

/-- Witness for C1 at a concrete fresh registry. -/
theorem C1_add_voice_collision_free_ids_witness :
    ∃ st1 v1 st2 v2,
      add_voice exSettings 1 [] exEmpty none (toL "New Voice") = (st1, .ok v1) ∧
      add_voice exSettings 2 [] st1 none (toL "New Voice") = (st2, .ok v2) ∧
      v1.id = toL "new-voice" ∧ v2.id = toL "new-voice-2" ∧
      dictGet st2.voices (toL "new-voice") = some v1 ∧
      dictGet st2.voices (toL "new-voice-2") = some v2 ∧
      (exSettings.voices_dir ++ '/' :: (toL "new-voice" ++ '/' :: promptFilename none)) ∈ st2.files ∧
      (exSettings.voices_dir ++ '/' :: (toL "new-voice-2" ++ '/' :: promptFilename none)) ∈ st2.files :=
  (C1_add_voice_collision_free_ids exSettings 1 2 [] [] exEmpty none none
    (toL "New Voice") (by decide)).2 (by decide) (by decide)

/-! ### C2: save/load round trip -/

theorem loadItems_pairs (S : Settings) (fs : List Str) :
    ∀ (m : List (Str × Voice)) (acc : List (Str × Voice)),
      (∀ p ∈ m, p.1 = p.2.id) → (keysOf m).Nodup → (∀ p ∈ m, p.1 ∉ keysOf acc) →
      loadItems S fs (m.map (fun p => some p.2)) acc =
        acc ++ m.filter (fun p => fs.contains (S.voices_dir ++ '/' :: p.2.path)) := by
  intro m
  induction m with
  | nil =>
    intro acc _ _ _
    simp [loadItems]
  | cons p rest ih =>
    intro acc hids hnodup hfresh
    have hid : p.1 = p.2.id := hids p (List.mem_cons_self _ _)
    have hpeta : (p.2.id, p.2) = p := by
      rw [← hid]
    have hnodup' : (keysOf rest).Nodup := by
      have : keysOf (p :: rest) = p.1 :: keysOf rest := rfl
      rw [this] at hnodup
      exact hnodup.of_cons
    have hhead : p.1 ∉ keysOf rest := by
      have : keysOf (p :: rest) = p.1 :: keysOf rest := rfl
      rw [this] at hnodup
      exact (List.nodup_cons.mp hnodup).1
    by_cases hex : fs.contains (S.voices_dir ++ '/' :: p.2.path) = true
    · simp only [List.map_cons, loadItems, hex, if_true]
      have hfreshid : p.2.id ∉ keysOf acc := hid ▸ hfresh p (List.mem_cons_self _ _)
      rw [dictInsert_fresh p.2 hfreshid]
      rw [ih (acc ++ [(p.2.id, p.2)]) (fun q hq => hids q (List.mem_cons_of_mem _ hq)) hnodup' ?_]
      · rw [List.filter_cons, if_pos hex, hpeta, List.append_assoc]
        rfl
      · intro q hq
        rw [keysOf_append]
        simp only [List.mem_append]
        rintro (hmem | hmem)
        · exact hfresh q (List.mem_cons_of_mem _ hq) hmem
        · have hq1 : q.1 = p.2.id := by simpa [keysOf] using hmem
          refine hhead ?_
          rw [hid, ← hq1]
          exact List.mem_map.mpr ⟨q, hq, rfl⟩
    · have hex' : fs.contains (S.voices_dir ++ '/' :: p.2.path) = false := by
        simpa using hex
      simp only [List.map_cons, loadItems, hex', Bool.false_eq_true, if_false]
      rw [ih acc (fun q hq => hids q (List.mem_cons_of_mem _ hq)) hnodup'
        (fun q hq => hfresh q (List.mem_cons_of_mem _ hq))]
      rw [List.filter_cons, if_neg hex]

/-- C2: `save()` followed by a fresh `load()` over the same metadata file
and voices root reproduces exactly the voices whose backing file still
exists (entries whose file was deleted in between are dropped); a `none`
(malformed) record is skipped without affecting the rest of the load; and
an absent metadata file loads as an empty registry. -/
theorem C2_save_load_roundtrip (S : Settings) (st : VMState) (fs2 : List Str)
    (hids : ∀ p ∈ st.voices, p.1 = p.2.id) (hnodup : (keysOf st.voices).Nodup) :
    loadVoices S (vmSave st).metadata fs2 =
      st.voices.filter (fun p => fs2.contains (S.voices_dir ++ '/' :: p.2.path)) ∧
    (∀ fs3, loadVoices S none fs3 = []) ∧
    (∀ records fs3, loadVoices S (some (none :: records)) fs3 =
      loadVoices S (some records) fs3) := by
  refine ⟨?_, fun fs3 => rfl, fun records fs3 => rfl⟩
  have hmeta : (vmSave st).metadata = some (st.voices.map (fun p => some p.2)) := rfl
  rw [hmeta]
  have := loadItems_pairs S fs2 st.voices [] hids hnodup (by simp [keysOf])
  simpa [loadVoices] using this

/-- Witness for C2: a one-voice registry round-trips over an unchanged
disk, and the same load drops the voice when its file is deleted. -/
theorem C2_save_load_roundtrip_witness :
    (∀ p ∈ exReg.voices, p.1 = p.2.id) ∧
    loadVoices exSettings (vmSave exReg).metadata exReg.files =
      exReg.voices.filter
        (fun p => exReg.files.contains (exSettings.voices_dir ++ '/' :: p.2.path)) :=
  ⟨by decide,
    (C2_save_load_roundtrip exSettings exReg exReg.files (by decide) (by decide)).1⟩

/-! ### C3: bootstrap seeding -/

/-- C3: on a fresh registry (no metadata file), `bootstrap` seeds exactly
one voice (the default id, in particular `"default"` under the default
configuration) when the bundled sample is configured and present; when the
source is unset or the file absent, `bootstrap` completes with an empty
registry. -/
theorem C3_bootstrap_default_seed (S : Settings) (now : Nat) (st : VMState)
    (hmeta : st.metadata = none) :
    (∀ src, S.default_voice_source = some src → src ∈ st.files →
      list_voices (bootstrap S now st) =
        [{ id := S.default_voice_id, name := S.default_voice_name,
           path := S.default_voice_id ++ '/' :: lastComponent src, createdAt := now }]) ∧
    (S.default_voice_source = none → (bootstrap S now st).voices = []) ∧
    (∀ src, S.default_voice_source = some src → src ∉ st.files →
      (bootstrap S now st).voices = []) := by
  have hload : bootstrap S now st = seedDefault S now { st with voices := [] } := by
    simp [bootstrap, vmLoad, loadVoices, hmeta]
  refine ⟨?_, ?_, ?_⟩
  · intro src hsrc hmem
    rw [hload]
    have hcontains : ({ st with voices := [] } : VMState).files.contains src = true :=
      List.elem_iff.mpr hmem
    simp only [seedDefault, hsrc, hcontains, if_true]
    simp [vmSave, list_voices, dictInsert, keysOf]
  · intro hsrc
    rw [hload]
    simp [seedDefault, hsrc]
  · intro src hsrc hmem
    rw [hload]
    simp only [seedDefault, hsrc]
    rw [if_neg (by simpa [List.elem_iff] using hmem)]

/-- Witness for C3 at the default configuration with the bundled sample
present. -/
theorem C3_bootstrap_default_seed_witness :
    list_voices (bootstrap exSettings 7 exFresh) =
      [{ id := exSettings.default_voice_id, name := exSettings.default_voice_name,
         path := exSettings.default_voice_id ++ '/' :: lastComponent (toL "examples/voice_01.wav"),
         createdAt := 7 }] :=
  (C3_bootstrap_default_seed exSettings 7 exFresh (by decide)).1
    (toL "examples/voice_01.wav") (by decide) (by decide)

/-! ### C5: empty display name -/

/-- C5: `add_voice` with an empty or whitespace-only display name fails
with HTTP 400 and returns the state unchanged: registry, metadata file and
filesystem are exactly as before. -/
theorem C5_add_voice_empty_name (S : Settings) (now : Nat) (fallback : Str)
    (st : VMState) (uploadFilename : Option Str) (voice_name : Str)
    (h : stripWS voice_name = []) :
    add_voice S now fallback st uploadFilename voice_name =
      (st, .error ⟨400, toL "voice_name must not be empty"⟩) := by
  simp [add_voice, h]

/-- Witness for C5 on a whitespace-only name. -/
theorem C5_add_voice_empty_name_witness :
    add_voice exSettings 1 [] exReg none (toL "  ") =
      (exReg, .error ⟨400, toL "voice_name must not be empty"⟩) :=
  C5_add_voice_empty_name exSettings 1 [] exReg none (toL "  ") (by decide)

/-! ### C8: lazy, at-most-once model loading -/

/-- C8: model initialization is lazy and at-most-once: starting unloaded,
a successful `ensure_model_loaded` performs exactly one underlying load,
and a second call observes the loaded handle and returns the state
untouched (still one load in total); a load failure surfaces as an HTTP
500 ModelLoadFailure after exactly one load attempt, with no retry inside
the call. -/
theorem C8_ensure_model_loaded_at_most_once (env : GenEnv) (ts : TTSState)
    (hnone : ts.model = none) (himp : env.importOk = true) :
    (env.loadErr = none →
      ensure_model_loaded env ts =
        ({ model := some (), loadCount := ts.loadCount + 1 }, .ok ()) ∧
      ensure_model_loaded env (ensure_model_loaded env ts).1 =
        ((ensure_model_loaded env ts).1, .ok ()) ∧
      (ensure_model_loaded env (ensure_model_loaded env ts).1).1.loadCount =
        ts.loadCount + 1) ∧
    (∀ msg, env.loadErr = some msg →
      ensure_model_loaded env ts =
        ({ ts with loadCount := ts.loadCount + 1 }, .error ⟨500, msg⟩) ∧
      (ensure_model_loaded env ts).1.model = none) := by
  constructor
  · intro hok
    have h1 : ensure_model_loaded env ts =
        ({ model := some (), loadCount := ts.loadCount + 1 }, .ok ()) := by
      simp [ensure_model_loaded, hnone, himp, hok]
    have h2 : ensure_model_loaded env (ensure_model_loaded env ts).1 =
        ((ensure_model_loaded env ts).1, .ok ()) := by
      rw [h1]
      simp [ensure_model_loaded]
    exact ⟨h1, h2, by rw [h2, h1]⟩
  · intro msg herr
    have h1 : ensure_model_loaded env ts =
        ({ ts with loadCount := ts.loadCount + 1 }, .error ⟨500, msg⟩) := by
      simp [ensure_model_loaded, hnone, himp, herr]
    exact ⟨h1, by rw [h1]; exact hnone⟩

/-- Witness for C8: a stub that loads successfully, from the unloaded
state. -/
theorem C8_ensure_model_loaded_at_most_once_witness :
    ensure_model_loaded exEnv exTTS = ({ model := some (), loadCount := 1 }, .ok ()) ∧
    ensure_model_loaded exEnv (ensure_model_loaded exEnv exTTS).1 =
      ((ensure_model_loaded exEnv exTTS).1, .ok ()) ∧
    (ensure_model_loaded exEnv (ensure_model_loaded exEnv exTTS).1).1.loadCount = 1 :=
  (C8_ensure_model_loaded_at_most_once exEnv exTTS (by decide) (by decide)).1 (by decide)

/-! ### C9: registry key/id consistency invariant -/

/-- Every key of the in-memory dict equals the `id` field of the stored
voice. -/
def KeysMatch (m : List (Str × Voice)) : Prop := ∀ p ∈ m, p.1 = p.2.id

theorem keysMatch_dictInsert {m : List (Str × Voice)} (v : Voice)
    (h : KeysMatch m) : KeysMatch (dictInsert m v.id v) := by
  unfold dictInsert
  split
  · intro q hq
    obtain ⟨p, hp, rfl⟩ := List.mem_map.mp hq
    by_cases hpk : p.1 = v.id
    · simp [hpk]
    · simpa [hpk] using h p hp
  · intro q hq
    rcases List.mem_append.mp hq with hmem | hmem
    · exact h q hmem
    · rw [List.mem_singleton.mp hmem]

theorem keysMatch_loadItems (S : Settings) (fs : List Str) :
    ∀ (records : List (Option Voice)) (acc : List (Str × Voice)),
      KeysMatch acc → KeysMatch (loadItems S fs records acc) := by
  intro records
  induction records with
  | nil => intro acc hacc; exact hacc
  | cons r rest ih =>
    intro acc hacc
    cases r with
    | none => exact ih acc hacc
    | some v =>
      simp only [loadItems]
      split
      · exact ih _ (keysMatch_dictInsert v hacc)
      · exact ih acc hacc

/-- C9: the registry key equals the stored voice's `id` in every reachable
state: the invariant holds after `_load`, is preserved by
`_seed_default_voice` and (unconditionally) established by `bootstrap`,
and is preserved by `register_voice` and `add_voice`. -/
theorem C9_registry_key_invariant :
    (∀ S meta fs, KeysMatch (loadVoices S meta fs)) ∧
    (∀ S now st, KeysMatch st.voices → KeysMatch (seedDefault S now st).voices) ∧
    (∀ S now st, KeysMatch (bootstrap S now st).voices) ∧
    (∀ S now st vid name fp, KeysMatch st.voices →
      KeysMatch (register_voice S now st vid name fp).1.voices) ∧
    (∀ S now fb st uf name, KeysMatch st.voices →
      KeysMatch (add_voice S now fb st uf name).1.voices) := by
  have hload : ∀ S meta fs, KeysMatch (loadVoices S meta fs) := by
    intro S meta fs
    cases meta with
    | none => intro q hq; simp [loadVoices] at hq
    | some records => exact keysMatch_loadItems S fs records [] (by intro q hq; simp at hq)
  have hseed : ∀ S now st, KeysMatch st.voices → KeysMatch (seedDefault S now st).voices := by
    intro S now st hst
    unfold seedDefault
    split
    · exact hst
    · split
      · simpa [vmSave] using
          keysMatch_dictInsert (m := st.voices)
            { id := S.default_voice_id, name := S.default_voice_name,
              path := S.default_voice_id ++ '/' :: lastComponent _, createdAt := now } hst
      · exact hst
  have hreg : ∀ S now st vid name fp, KeysMatch st.voices →
      KeysMatch (register_voice S now st vid name fp).1.voices := by
    intro S now st vid name fp hst
    unfold register_voice
    split
    · exact hst
    · simpa [vmSave] using
        keysMatch_dictInsert (m := st.voices)
          { id := vid, name := name, path := _, createdAt := now } hst
  refine ⟨hload, hseed, ?_, hreg, ?_⟩
  · intro S now st
    have hld : KeysMatch (vmLoad S st).voices := hload S st.metadata st.files
    simp only [bootstrap]
    split
    · exact hseed S now _ hld
    · exact hld
  · intro S now fb st uf name hst
    unfold add_voice
    split
    · exact hst
    · exact hreg S now _ _ _ _ hst

/-- Witness for C9: the invariant is preserved through a concrete
`add_voice` call on a populated registry. -/
theorem C9_registry_key_invariant_witness :
    KeysMatch ((add_voice exSettings 1 [] exReg none (toL "Bob")).1.voices) :=
  C9_registry_key_invariant.2.2.2.2 exSettings 1 [] exReg none (toL "Bob")
    (by unfold KeysMatch; decide)

/-! ### The generate pipeline -/

theorem mem_insertFile_iff (p q : Str) (fs : List Str) :
    q ∈ insertFile p fs ↔ q = p ∨ q ∈ fs := by
  unfold insertFile
  split
  · have hp : p ∈ fs := List.elem_iff.mp (by assumption)
    constructor
    · exact Or.inr
    · rintro (rfl | hq) <;> [exact hp; exact hq]
  · simp [List.mem_cons]

theorem mem_removeFile_iff (p q : Str) (fs : List Str) :
    q ∈ removeFile p fs ↔ q ∈ fs ∧ q ≠ p := by
  simp [removeFile, List.mem_filter]

theorem rawPath_ne_finalPath (S : Settings) (uid : Str) :
    rawPath S uid ≠ finalPath S uid := by
  unfold rawPath finalPath
  intro h
  have h1 := List.append_cancel_left h
  have h2 : uid ++ toL "_raw.wav" = uid ++ toL ".wav" := by
    injection h1
  have h3 := List.append_cancel_left h2
  exact absurd h3 (by decide)

/-- C6: a request whose text is empty or whitespace-only fails with HTTP
400 before anything else happens: the returned world is the input world,
so in particular no collaborator-invocation event is logged (no voice
lookup, no model load, no synthesis, no post-processing) and no file is
touched. -/
theorem C6_generate_empty_text (S : Settings) (env : GenEnv) (uid : Str)
    (w : World) (payload : GenerateRequest) (h : stripWS payload.text = []) :
    generate S env uid w payload = (w, .error ⟨400, toL "text must not be empty"⟩) ∧
    (generate S env uid w payload).1.events = w.events ∧
    (generate S env uid w payload).1.vm.files = w.vm.files := by
  have h1 : generate S env uid w payload =
      (w, .error ⟨400, toL "text must not be empty"⟩) := by
    simp [generate, h]
  exact ⟨h1, by rw [h1], by rw [h1]⟩

/-- Witness for C6 on a whitespace-only text. -/
theorem C6_generate_empty_text_witness :
    generate exSettings exEnv (toL "u1") exWorld
        { text := toL " ", voice_id := none, speed := 1000, pitch := 0 } =
      (exWorld, .error ⟨400, toL "text must not be empty"⟩) :=
  (C6_generate_empty_text exSettings exEnv (toL "u1") exWorld
    { text := toL " ", voice_id := none, speed := 1000, pitch := 0 } (by decide)).1

/-- C7: assuming the generated unique token is fresh (the final output
path does not yet exist), the final output path is all-or-nothing: when
`generate` succeeds the final file exists, and on every failure no file
exists at the final path.  Collaborators are modelled per their spec §6
contract: a call either succeeds producing exactly its declared output
file or raises producing nothing. -/
theorem C7_final_path_all_or_nothing (S : Settings) (env : GenEnv) (uid : Str)
    (w : World) (payload : GenerateRequest)
    (hfresh : finalPath S uid ∉ w.vm.files) :
    ((generate S env uid w payload).2.isOk = true →
      finalPath S uid ∈ (generate S env uid w payload).1.vm.files) ∧
    ((generate S env uid w payload).2.isOk = false →
      finalPath S uid ∉ (generate S env uid w payload).1.vm.files) := by
  have hrf := rawPath_ne_finalPath S uid
  have hfr : ¬finalPath S uid = rawPath S uid := fun hh => hrf hh.symm
  simp only [generate]
  repeat' split
  all_goals constructor
  all_goals intro hok
  all_goals simp_all [logEvent, setFiles, Except.isOk, Except.toBool,
    mem_insertFile_iff, mem_removeFile_iff]

/-- Witness for C7 on a fully successful concrete pipeline run. -/
theorem C7_final_path_all_or_nothing_witness :
    ((generate exSettings exEnv (toL "u1") exWorld exReq).2.isOk = true →
      finalPath exSettings (toL "u1") ∈
        (generate exSettings exEnv (toL "u1") exWorld exReq).1.vm.files) ∧
    ((generate exSettings exEnv (toL "u1") exWorld exReq).2.isOk = false →
      finalPath exSettings (toL "u1") ∉
        (generate exSettings exEnv (toL "u1") exWorld exReq).1.vm.files) :=
  C7_final_path_all_or_nothing exSettings exEnv (toL "u1") exWorld exReq (by decide)

/-- C10: whenever `generate` takes the speed/pitch post-processing branch
(observable as a logged post-processing event that was not already
present), the raw scratch file is deleted by the `finally:` clause whether
post-processing succeeds or raises, so the raw scratch path is not on disk
afterwards. -/
theorem C10_raw_scratch_cleanup (S : Settings) (env : GenEnv) (uid : Str)
    (w : World) (payload : GenerateRequest)
    (hev : GenEvent.postProcess ∉ w.events) :
    GenEvent.postProcess ∈ (generate S env uid w payload).1.events →
      rawPath S uid ∉ (generate S env uid w payload).1.vm.files := by
  simp only [generate]
  repeat' split
  all_goals intro hpost
  all_goals simp_all [logEvent, setFiles, mem_insertFile_iff, mem_removeFile_iff]

/-- Witness for C10: a concrete run with speed 1.2 and pitch −1 takes the
post-processing branch and leaves no raw scratch file. -/
theorem C10_raw_scratch_cleanup_witness :
    rawPath exSettings (toL "u1") ∉
      (generate exSettings exEnv (toL "u1") exWorld exReq).1.vm.files :=
  C10_raw_scratch_cleanup exSettings exEnv (toL "u1") exWorld exReq
    (by decide) (by decide)

end IndexTTS
